import Mathlib

/-!
Verification of the wrapper / spec-stack design of the
`P-based-RL-Simulink-Models` repository (a gymnasium fork slice).

The repository ships the integration tests, callers and two concrete
source modules (`gymnasium/experimental/wrappers/__init__.py` and
`gymnasium/wrappers/time_limit.py`); the spec-stack serializer, the
`OneOf` space and the `DelayObservation` wrapper are exercised by the
tests but their defining modules are not part of the snapshot, so those
parts are modelled from the specification (each such definition says so
in its doc comment).  Everything is kept executable so that concrete
witnesses evaluate inside the kernel.
-/

namespace GymSpec

/-! ## Decimal digits

Utilities shared by the serializer model and by the embedding of the
version-number parsing in `gymnasium/experimental/wrappers/__init__.py`
(`int(re.findall(r"\d+", name)[-1])`). -/

/-- The ASCII character of the decimal digit `n % 10`. -/
def digitChar (n : Nat) : Char := Char.ofNat (48 + n % 10)

/-- Fuel-driven accumulator version of decimal printing; structural on the
fuel so that it reduces inside the kernel. -/
def digitsOfAux : Nat → Nat → List Char → List Char
  | 0, _, acc => acc
  | fuel + 1, n, acc =>
    if n < 10 then digitChar n :: acc
    else digitsOfAux fuel (n / 10) (digitChar (n % 10) :: acc)

/-- Decimal digit string of a natural number (executable). -/
def natToDigits (n : Nat) : List Char := digitsOfAux (n + 1) n []

/-- Recursive specification of decimal printing, used in proofs. -/
def digitsSpec (n : Nat) : List Char :=
  if n < 10 then [digitChar n] else digitsSpec (n / 10) ++ [digitChar (n % 10)]
termination_by n
decreasing_by exact Nat.div_lt_self (by omega) (by omega)

/-- Numeric value of a list of decimal digit characters. -/
def digitsVal (l : List Char) : Nat :=
  l.foldl (fun a c => 10 * a + (c.toNat - 48)) 0

/-! ## Reading numbers back -/

/-- Read a non-empty run of decimal digits terminated by `;`. -/
def readNat (l : List Char) : Option (Nat × List Char) :=
  match l.takeWhile Char.isDigit, l.dropWhile Char.isDigit with
  | [], _ => none
  | _ :: _, [] => none
  | d :: ds, c :: r => if c = ';' then some (digitsVal (d :: ds), r) else none

/-- Textual form of an integer: optional `m` sign, digits, then `;`. -/
def encInt (i : Int) : List Char :=
  if i < 0 then 'm' :: (natToDigits i.natAbs ++ [';'])
  else natToDigits i.natAbs ++ [';']

/-- Parse the textual integer form back. -/
def readInt (l : List Char) : Option (Int × List Char) :=
  match l with
  | [] => none
  | c :: rest =>
    if c = 'm' then
      match readNat rest with
      | some (n, r) => some (-(n : Int), r)
      | none => none
    else
      match readNat (c :: rest) with
      | some (n, r) => some ((n : Int), r)
      | none => none

/-! ## Escaped character payloads

Strings inside the serialized form are rendered with a terminator `q`
and an escape `x`, so that any character sequence round-trips. -/

/-- Escape a character list and close it with the terminator `q`. -/
def encChars : List Char → List Char
  | [] => ['q']
  | c :: cs => if c = 'q' ∨ c = 'x' then 'x' :: c :: encChars cs else c :: encChars cs

/-- Read an escaped character payload up to its terminator. -/
def readChars : List Char → Option (List Char × List Char)
  | [] => none
  | c :: rest =>
    if c = 'x' then
      match rest with
      | [] => none
      | d :: rest2 =>
        match readChars rest2 with
        | some (s, r) => some (d :: s, r)
        | none => none
    else if c = 'q' then some ([], rest)
    else
      match readChars rest with
      | some (s, r) => some (c :: s, r)
      | none => none

/-! ## Argument values

The value domain of wrapper / environment keyword arguments: the
JSON-representable primitives (`null`, booleans, numbers, strings),
nested sequences and mappings, plus the best-effort textual form of a
callable.  Numeric primitives are modelled by integers; IEEE floats are
outside the shallow embedding. -/

inductive JVal where
  | jnull
  | jbool (b : Bool)
  | jint (i : Int)
  | jstr (s : String)
  | jcall (src : String)
  | jarr (items : List JVal)
  | jobj (fields : List (String × JVal))

/-! ### Serialized text of a value

Every node opens with a distinct tag character; integers use the
digit encoding above, strings and callable sources the escaped payload
encoding, and sequences / mappings run until the terminator `e`. -/

mutual

/-- Modelled from the spec: the text encoding of one argument value, the
value-level half of `serialize_spec_stack` (the serializer module itself
is not part of the source snapshot). -/
def encV : JVal → List Char
  | .jnull => ['n']
  | .jbool true => ['t']
  | .jbool false => ['f']
  | .jint i => 'i' :: encInt i
  | .jstr s => 's' :: encChars s.data
  | .jcall s => 'c' :: encChars s.data
  | .jarr l => 'a' :: encA l
  | .jobj l => 'o' :: encO l

/-- Text encoding of a sequence of values, closed by `e`. -/
def encA : List JVal → List Char
  | [] => ['e']
  | v :: vs => encV v ++ encA vs

/-- Text encoding of a mapping, one `k`-tagged key/value entry at a
time, closed by `e`. -/
def encO : List (String × JVal) → List Char
  | [] => ['e']
  | (k, v) :: vs => 'k' :: (encChars k.data ++ (encV v ++ encO vs))

end

mutual

/-- Modelled from the spec: fuel-driven parser for one serialized value,
the value-level half of `deserialize_spec_stack`. -/
def decV : Nat → List Char → Option (JVal × List Char)
  | 0, _ => none
  | _ + 1, [] => none
  | fuel + 1, c :: rest =>
    if c = 'n' then some (.jnull, rest)
    else if c = 't' then some (.jbool true, rest)
    else if c = 'f' then some (.jbool false, rest)
    else if c = 'i' then
      match readInt rest with
      | some (i, r) => some (.jint i, r)
      | none => none
    else if c = 's' then
      match readChars rest with
      | some (l, r) => some (.jstr (String.mk l), r)
      | none => none
    else if c = 'c' then
      match readChars rest with
      | some (l, r) => some (.jcall (String.mk l), r)
      | none => none
    else if c = 'a' then
      match decA fuel rest with
      | some (l, r) => some (.jarr l, r)
      | none => none
    else if c = 'o' then
      match decO fuel rest with
      | some (l, r) => some (.jobj l, r)
      | none => none
    else none

/-- Parser for a serialized sequence of values. -/
def decA : Nat → List Char → Option (List JVal × List Char)
  | 0, _ => none
  | _ + 1, [] => none
  | fuel + 1, c :: rest =>
    if c = 'e' then some ([], rest)
    else
      match decV fuel (c :: rest) with
      | some (v, r) =>
        match decA fuel r with
        | some (l, r2) => some (v :: l, r2)
        | none => none
      | none => none

/-- Parser for a serialized mapping. -/
def decO : Nat → List Char → Option (List (String × JVal) × List Char)
  | 0, _ => none
  | _ + 1, [] => none
  | fuel + 1, c :: rest =>
    if c = 'e' then some ([], rest)
    else if c = 'k' then
      match readChars rest with
      | some (k, r) =>
        match decV fuel r with
        | some (v, r2) =>
          match decO fuel r2 with
          | some (l, r3) => some ((String.mk k, v) :: l, r3)
          | none => none
        | none => none
      | none => none
    else none

end

/-! ## The spec-stack data model

Modelled from the spec (§3): `WrapperSpec` (wrapper class name, version
marker, constructor keyword arguments), `EnvSpec` (id, keyword
arguments, optional episode step limit) and `SpecStack` (ordered
wrapper specs, outermost first, terminated by exactly one `EnvSpec`).
The defining module `gymnasium/envs/registration.py` is not part of the
source snapshot; the shapes follow the spec and the assertions of
`tests/utils/test_spec_stack.py`. -/

structure WrapperSpec where
  name : String
  version : Nat
  kwargs : List (String × JVal)

structure EnvSpec where
  id : String
  kwargs : List (String × JVal)
  maxEpisodeSteps : Option Nat

structure SpecStack where
  wrappers : List WrapperSpec
  env : EnvSpec

/-! ### Record shapes of the serialized document (spec §6): an ordered
list of layer records (name, version, kwargs) followed by one terminal
record (id, kwargs, optional max steps). -/

def maxStepsToJVal : Option Nat → JVal
  | none => .jnull
  | some n => .jint n

def wrapperToJVal (w : WrapperSpec) : JVal :=
  .jobj [("name", .jstr w.name), ("version", .jint w.version),
    ("kwargs", .jobj w.kwargs)]

def envToJVal (e : EnvSpec) : JVal :=
  .jobj [("id", .jstr e.id), ("kwargs", .jobj e.kwargs),
    ("max_episode_steps", maxStepsToJVal e.maxEpisodeSteps)]

def stackToJVal (s : SpecStack) : JVal :=
  .jarr (s.wrappers.map wrapperToJVal ++ [envToJVal s.env])

def jvalToMaxSteps : JVal → Option (Option Nat)
  | .jnull => some none
  | .jint i => if 0 ≤ i then some (some i.toNat) else none
  | _ => none

def jvalToWrapper : JVal → Option WrapperSpec
  | .jobj [(k1, .jstr n), (k2, .jint ver), (k3, .jobj kw)] =>
    if k1 = "name" ∧ k2 = "version" ∧ k3 = "kwargs" ∧ 0 ≤ ver then
      some ⟨n, ver.toNat, kw⟩
    else none
  | _ => none

def jvalToEnv : JVal → Option EnvSpec
  | .jobj [(k1, .jstr i), (k2, .jobj kw), (k3, ms)] =>
    if k1 = "id" ∧ k2 = "kwargs" ∧ k3 = "max_episode_steps" then
      match jvalToMaxSteps ms with
      | some m => some ⟨i, kw, m⟩
      | none => none
    else none
  | _ => none

/-- All-or-nothing traversal of a list through a partial function. -/
def mapOpt {α β : Type} (f : α → Option β) : List α → Option (List β)
  | [] => some []
  | a :: as =>
    match f a with
    | some b =>
      match mapOpt f as with
      | some bs => some (b :: bs)
      | none => none
    | none => none

def jvalToStack : JVal → Option SpecStack
  | .jarr items =>
    match items.getLast? with
    | some last =>
      match mapOpt jvalToWrapper items.dropLast, jvalToEnv last with
      | some ws, some e => some ⟨ws, e⟩
      | _, _ => none
    | none => none
  | _ => none

/-! ### Callable detection -/

mutual

/-- Does a value contain (at any nesting depth) a serialized callable? -/
def jHasCallable : JVal → Bool
  | .jcall _ => true
  | .jarr l => jHasCallableA l
  | .jobj l => jHasCallableO l
  | _ => false

def jHasCallableA : List JVal → Bool
  | [] => false
  | v :: vs => jHasCallable v || jHasCallableA vs

def jHasCallableO : List (String × JVal) → Bool
  | [] => false
  | (_, v) :: vs => jHasCallable v || jHasCallableO vs

end

/-- Does any layer of the stack carry a callable argument? -/
def hasCallableStack (s : SpecStack) : Bool := jHasCallable (stackToJVal s)

/-! ### The serialization API

Modelled from the spec (§4.4, §7): `serialize_spec_stack` is total;
`deserialize_spec_stack` called without the unsafe opt-in rejects a
callable-bearing document with the distinguished unsafe-deserialization
error, before any stack is produced. -/

inductive DeserializeError where
  | parseError (msg : String)
  | unsafeCallable (msg : String)
deriving DecidableEq

def unsafeEvalMsg : String :=
  "spec stack contains a serialized callable: deserializing it requires allow_unsafe_eval=True"

def serialize_spec_stack (s : SpecStack) : String :=
  String.mk (encV (stackToJVal s))

def deserialize_spec_stack (text : String) (allowUnsafeEval : Bool) :
    Except DeserializeError SpecStack :=
  match decV text.length text.data with
  | some (v, []) =>
    if allowUnsafeEval = false ∧ jHasCallable v = true then
      .error (.unsafeCallable unsafeEvalMsg)
    else
      match jvalToStack v with
      | some s => .ok s
      | none => .error (.parseError "the document is not a spec stack")
  | _ => .error (.parseError "malformed spec stack text")

/-! ### Pretty-printing

Modelled from the spec (§4.4): an indented tree showing each layer's
name and arguments top-down; the same renderer serves the in-memory
stack and — through the deserializer — its serialized text form
(`pprint_spec_stack` accepts either in the source). -/

def natToStr (n : Nat) : String := String.mk (natToDigits n)

def intToStr (i : Int) : String :=
  if i < 0 then "-" ++ natToStr i.natAbs else natToStr i.natAbs

mutual

/-- Human-readable form of one argument value. -/
def pprintV : JVal → String
  | .jnull => "None"
  | .jbool true => "True"
  | .jbool false => "False"
  | .jint i => intToStr i
  | .jstr s => s
  | .jcall s => s
  | .jarr l => "[" ++ pprintA l ++ "]"
  | .jobj l => "(" ++ pprintO l ++ ")"

def pprintA : List JVal → String
  | [] => ""
  | [v] => pprintV v
  | v :: vs => pprintV v ++ ", " ++ pprintA vs

def pprintO : List (String × JVal) → String
  | [] => ""
  | [(k, v)] => k ++ "=" ++ pprintV v
  | (k, v) :: vs => k ++ "=" ++ pprintV v ++ ", " ++ pprintO vs

end

def indentStr (depth : Nat) : String := String.mk (List.replicate (4 * depth) ' ')

def pprintWrapperLine (depth : Nat) (w : WrapperSpec) : String :=
  indentStr depth ++ w.name ++ "V" ++ natToStr w.version
    ++ "(" ++ pprintO w.kwargs ++ ")\n"

def pprintEnvLine (depth : Nat) (e : EnvSpec) : String :=
  indentStr depth ++ e.id ++ "(" ++ pprintO e.kwargs ++ ")\n"

def pprintLayers : Nat → List WrapperSpec → String
  | _, [] => ""
  | depth, w :: ws => pprintWrapperLine depth w ++ pprintLayers (depth + 1) ws

/-- Render a stack as an indented tree, outermost wrapper first. -/
def pprint_spec_stack (s : SpecStack) : String :=
  pprintLayers 0 s.wrappers ++ pprintEnvLine s.wrappers.length s.env

/-- Render the serialized text form of a stack (the variant of the
pretty-printer that is handed the JSON text instead of the in-memory
stack; printing may show callables, so parsing runs with the opt-in). -/
def pprint_spec_stack_text (text : String) : Except DeserializeError String :=
  match deserialize_spec_stack text true with
  | .ok s => .ok (pprint_spec_stack s)
  | .error err => .error err

/-! ## Wrapper chains and reconstruction

Modelled from the spec (§2, §4.3, §4.5): a live chain is a linked
sequence of wrapper instances around one base environment; capture
(`env.spec_stack`) records each layer outermost-first; `gym.make` given
a stack builds the terminal environment and re-applies the wrappers in
stack order.  The behaviour of a chain is modelled by a deterministic
transition system whose base dynamics depend on the `EnvSpec` and whose
per-layer observation transformation depends on the `WrapperSpec` (the
chains the claim quantifies over carry no non-deterministic
callables). -/

inductive Chain where
  | base (e : EnvSpec)
  | wrap (w : WrapperSpec) (inner : Chain)

/-- Capture: walk the live chain outermost-to-innermost, recording each
layer's spec, terminated by the base `EnvSpec` (the `spec_stack`
property). -/
def spec_stack : Chain → SpecStack
  | .base e => ⟨[], e⟩
  | .wrap w c => ⟨w :: (spec_stack c).wrappers, (spec_stack c).env⟩

/-- Reconstruction: `gym.make` applied to a spec stack — build the
terminal environment, then apply the wrappers in stack order. -/
def gym_make (s : SpecStack) : Chain :=
  s.wrappers.foldr (fun w c => .wrap w c) (.base s.env)

/-! ### Deterministic chain semantics -/

/-- A simple deterministic mixing function. -/
def mix2 (a b : Int) : Int := a * 1000003 + b * 8191 + 12345

/-- Hash of a spec document, through its serialized text. -/
def strHash (s : String) : Int :=
  s.data.foldl (fun a c => a * 131 + (c.toNat : Int)) 7

def wrapperHash (w : WrapperSpec) : Int := strHash (String.mk (encV (wrapperToJVal w)))

def envHash (e : EnvSpec) : Int := strHash (String.mk (encV (envToJVal e)))

/-- Base-environment state after a seeded reset. -/
def baseReset (e : EnvSpec) (seed : Int) : Int := mix2 (envHash e) seed

/-- Base-environment state transition for one step. -/
def baseStep (e : EnvSpec) (st a : Int) : Int := mix2 (mix2 (envHash e) st) a

/-- Base-environment observation of a state. -/
def baseObs (e : EnvSpec) (st : Int) : Int := mix2 (envHash e) (st + 1)

/-- Observation transformation applied by one wrapper layer. -/
def wrapperObs (w : WrapperSpec) (o : Int) : Int := mix2 (wrapperHash w) o

/-- Observation of the full chain: the base observation filtered
through every wrapper, innermost first. -/
def chainObs : Chain → Int → Int
  | .base e, st => baseObs e st
  | .wrap w c, st => wrapperObs w (chainObs c st)

def chainEnvSpec : Chain → EnvSpec
  | .base e => e
  | .wrap _ c => chainEnvSpec c

def chainTrajAux (c : Chain) (e : EnvSpec) : Int → List Int → List Int
  | _, [] => []
  | st, a :: as =>
    chainObs c (baseStep e st a) :: chainTrajAux c e (baseStep e st a) as

/-- The observation trajectory of a chain: reset with a seed, then step
through the action sequence, collecting every observation. -/
def chainTraj (c : Chain) (seed : Int) (acts : List Int) : List Int :=
  chainObs c (baseReset (chainEnvSpec c) seed)
    :: chainTrajAux c (chainEnvSpec c) (baseReset (chainEnvSpec c) seed) acts

/-! ## Version resolution of experimental wrappers

Embedding of `__getattr__` in
`src/gymnasium/experimental/wrappers/__init__.py` (lines 104-151),
which fires for any attribute that is not in `__all__`:

* `base_name = wrapper_name[:-2]`;
* `version = int(re.findall(r"\d+", wrapper_name)[-1])`, or `-1` on
  `IndexError` (no digits anywhere in the name);
* the family is every `__all__` entry that starts with `base_name`; an
  empty family raises `AttributeError`;
* `latest_version` is the maximum trailing number of the family (a
  family member without digits would crash the `max` comprehension with
  an uncaught `IndexError`, modelled by a distinguished outcome);
* `version < 0` and `version > latest` raise `InvalidVersionWrapper`,
  `version < latest` raises `DeprecatedWrapper`, and `version = latest`
  falls through (the function implicitly returns `None`). -/

/-- The `__all__` list of `gymnasium/experimental/wrappers/__init__.py`,
in source order. -/
def experimentalAll : List String :=
  ["LambdaObservationV0", "FilterObservationV0", "FlattenObservationV0",
   "GrayscaleObservationV0", "ResizeObservationV0", "ReshapeObservationV0",
   "RescaleObservationV0", "DtypeObservationV0", "PixelObservationV0",
   "NormalizeObservationV0", "TimeAwareObservationV0", "FrameStackObservationV0",
   "DelayObservationV0", "AtariPreprocessingV0",
   "LambdaActionV0", "ClipActionV0", "RescaleActionV0", "StickyActionV0",
   "LambdaRewardV0", "ClipRewardV0", "NormalizeRewardV1",
   "AutoresetV0", "PassiveEnvCheckerV0", "OrderEnforcingV0",
   "RecordEpisodeStatisticsV0",
   "RenderCollectionV0", "RecordVideoV0", "HumanRenderingV0",
   "VectorRecordEpisodeStatistics", "VectorListInfo"]

/-- Maximal runs of decimal digits in a character list
(`re.findall(r"\d+", s)`); the accumulator holds the current run
reversed. -/
def digitRunsAux : List Char → List Char → List (List Char)
  | [], cur => if cur = [] then [] else [cur.reverse]
  | c :: rest, cur =>
    if c.isDigit then digitRunsAux rest (c :: cur)
    else if cur = [] then digitRunsAux rest []
    else cur.reverse :: digitRunsAux rest []

def digitRuns (s : String) : List (List Char) := digitRunsAux s.data []

/-- `int(re.findall(r"\d+", s)[-1])`, when any digit run exists. -/
def lastNum (s : String) : Option Nat := (digitRuns s).getLast?.map digitsVal

/-- The `version` local of `__getattr__`: the last number of the name,
or `-1` when the `IndexError` branch assigns it. -/
def versionOf (s : String) : Int :=
  match lastNum s with
  | some n => (n : Int)
  | none => -1

/-- `wrapper_name[:-2]`. -/
def baseNameOf (s : String) : String := String.mk s.data.dropLast.dropLast

def startsWithL : List Char → List Char → Bool
  | _, [] => true
  | [], _ :: _ => false
  | a :: as, b :: bs => a = b && startsWithL as bs

/-- `name.startswith(base_name)`. -/
def strStartsWith (s base : String) : Bool := startsWithL s.data base.data

/-- The possible outcomes of `__getattr__`: the three exception kinds
it raises, the uncaught `IndexError` of the `max` comprehension, and
the implicit `None` fall-through when the requested version is exactly
the latest. -/
inductive GetattrOutcome where
  | attributeError (msg : String)
  | invalidVersionWrapper (msg : String)
  | deprecatedWrapper (msg : String)
  | indexErrorCrash
  | returnsNone
deriving DecidableEq

/-- ASCII apostrophe (code 39), used in the Python error text. -/
def apos : String := String.mk [Char.ofNat 39]

def attributeErrorMsg (wrapperName : String) : String :=
  "cannot import name " ++ apos ++ wrapperName ++ apos
    ++ " from " ++ apos ++ "gymnasium.experimental.wrappers" ++ apos

def notValidVersionMsg (wrapperName baseName : String) (latest : Nat) : String :=
  wrapperName ++ " is not a valid version number, use "
    ++ baseName ++ natToStr latest ++ " instead."

def deprecatedMsg (wrapperName baseName : String) (latest : Nat) : String :=
  wrapperName ++ " is now deprecated, use " ++ baseName ++ natToStr latest
    ++ " instead.\nTo see the changes made, go to "
    ++ "https://gymnasium.farama.org/api/experimental/wrappers/#gymnasium.experimental.wrappers."
    ++ baseName ++ natToStr latest ++ "."

def wrongVersionMsg (wrapperName baseName : String) (latest : Nat) : String :=
  wrapperName ++ " is the wrong version number, use "
    ++ baseName ++ natToStr latest ++ " instead."

/-- `__getattr__(wrapper_name)` of
`gymnasium/experimental/wrappers/__init__.py`. -/
def getattrWrappers (wrapperName : String) : GetattrOutcome :=
  let baseName := baseNameOf wrapperName
  let version := versionOf wrapperName
  let wrappers := experimentalAll.filter (fun n => strStartsWith n baseName)
  if wrappers.isEmpty then .attributeError (attributeErrorMsg wrapperName)
  else if wrappers.all (fun n => (lastNum n).isSome) then
    let latest := (wrappers.filterMap lastNum).foldl max 0
    if version < 0 then
      .invalidVersionWrapper (notValidVersionMsg wrapperName baseName latest)
    else if version < (latest : Int) then
      .deprecatedWrapper (deprecatedMsg wrapperName baseName latest)
    else if (latest : Int) < version then
      .invalidVersionWrapper (wrongVersionMsg wrapperName baseName latest)
    else .returnsNone
  else .indexErrorCrash

/-- Is `pat` a contiguous substring of `l`? -/
def containsSub (l pat : List Char) : Bool :=
  match l with
  | [] => startsWithL [] pat
  | _ :: t => startsWithL l pat || containsSub t pat

/-! ## The `OneOf` composite space

Modelled from the spec (§3 Space, §4.1) and the behavioural assertions
of `src/tests/spaces/test_oneof.py`, the repository's authority on the
missing `gymnasium/spaces` module:

* construction takes a sequence of objects and fails with an
  assertion-style error unless every element is itself a `Space`
  (`test_bad_oneof_calls`);
* `seed` accepts `None`, an `int`, or a `list`/`tuple` whose length is
  the number of sub-spaces **plus one** (one seed for the space's own
  index generator: `test_oneof_seeds` passes `[123, 456, 789]` for two
  sub-spaces and expects three seeds back); any other type raises
  `TypeError` naming the type (`test_bad_oneof_seed`), a wrong-length
  sequence raises `ValueError`;
* containment requires an `(index, value)` pair whose index passes
  `isinstance(index, (int, np.int64))` — `test_oneof_contains` asserts
  that `np.int64(0)` is accepted and `np.int32(0)` is not;
* sampling and seeding are deterministic functions of the seeds; `None`
  draws fresh entropy, modelled by an explicit entropy argument that
  differs between two runs.

Sub-space values use integers (floats are outside the shallow
embedding); the index-type logic is independent of that choice. -/

inductive Space where
  | discrete (n : Nat)
  | box (low high : Int) (dim : Nat)
  | multiBinary (n : Nat)
deriving DecidableEq

inductive SpaceVal where
  | intVal (i : Int)
  | vecVal (l : List Int)
deriving DecidableEq

def spaceContains : Space → SpaceVal → Bool
  | .discrete n, .intVal i => decide (0 ≤ i) && decide (i < n)
  | .box lo hi d, .vecVal l =>
    decide (l.length = d) && l.all (fun x => decide (lo ≤ x) && decide (x ≤ hi))
  | .multiBinary n, .vecVal l =>
    decide (l.length = n) && l.all (fun x => decide (x = 0) || decide (x = 1))
  | _, _ => false

/-- A Python object handed to the `OneOf` constructor. -/
inductive PyObj where
  | spaceObj (s : Space)
  | strObj (s : String)
  | otherObj (typeName : String)
deriving DecidableEq

def isSpaceObj : PyObj → Bool
  | .spaceObj _ => true
  | _ => false

def toSpace : PyObj → Option Space
  | .spaceObj s => some s
  | _ => none

/-- The index component of a candidate `OneOf` sample, tagged with its
Python runtime type. -/
inductive PyIdx where
  | pyInt (i : Int)
  | npInt64 (i : Int)
  | npInt32 (i : Int)
deriving DecidableEq

def idxVal : PyIdx → Int
  | .pyInt i => i
  | .npInt64 i => i
  | .npInt32 i => i

/-- `isinstance(index, (int, np.int64))`, the index type check of
`OneOf.contains` pinned by `test_oneof_contains`. -/
def isIntLike : PyIdx → Bool
  | .pyInt _ => true
  | .npInt64 _ => true
  | .npInt32 _ => false

/-- A native Python `int` (and nothing else). -/
def isNativeInt : PyIdx → Bool
  | .pyInt _ => true
  | _ => false

inductive ConstructionError where
  | assertionError (msg : String)
  | typeError (msg : String)
  | valueError (msg : String)
deriving DecidableEq

/-- Modelled from the spec: the `OneOf` constructor — assertion-style
failure unless every element is itself a Space. -/
def mkOneOf (elems : List PyObj) : Except ConstructionError (List Space) :=
  if elems.all isSpaceObj then .ok (elems.filterMap toSpace)
  else .error (.assertionError "Elements of the OneOf must be instances of gym.Space")

/-- Modelled from the spec: `OneOf.contains` on an `(index, value)`
pair — the index must pass the `isinstance` check and select an
existing sub-space that contains the value. -/
def oneOfContains (subs : List Space) (idx : PyIdx) (v : SpaceVal) : Bool :=
  isIntLike idx && decide (0 ≤ idxVal idx)
    && (match subs[(idxVal idx).toNat]? with
        | some sp => spaceContains sp v
        | none => false)

/-- The seed argument of a composite space, tagged with its Python
runtime type; `otherArg` carries the rendered type name of an
unsupported value. -/
inductive SeedArg where
  | noneArg
  | intArg (n : Int)
  | listArg (l : List Int)
  | tupleArg (l : List Int)
  | otherArg (typeName : String)
deriving DecidableEq

inductive SeedError where
  | typeError (msg : String)
  | valueError (msg : String)
deriving DecidableEq

/-- Modelled from the spec: `OneOf.seed`.  `entropy` stands for the
fresh OS entropy drawn when the argument is `None`; every other
accepted argument determines the seed list without consulting it. -/
def oneOfSeed (entropy : Int) (numSubs : Nat) (s : SeedArg) :
    Except SeedError (List Int) :=
  match s with
  | .noneArg => .ok ((List.range (numSubs + 1)).map (fun i => mix2 entropy i))
  | .intArg n => .ok ((List.range (numSubs + 1)).map (fun i => mix2 n i))
  | .listArg l =>
    if l.length = numSubs + 1 then .ok l
    else .error (.valueError ("Expects that the seeds length is n+1, actual length: "
      ++ natToStr l.length))
  | .tupleArg l =>
    if l.length = numSubs + 1 then .ok l
    else .error (.valueError ("Expects that the seeds length is n+1, actual length: "
      ++ natToStr l.length))
  | .otherArg t =>
    .error (.typeError ("Expected seed type: list, tuple, int or None, actual type: " ++ t))

/-- Deterministic sample of one sub-space from its seed. -/
def spaceSample : Space → Int → SpaceVal
  | .discrete n, sd => .intVal (Int.ofNat ((mix2 sd 1).natAbs % max n 1))
  | .box lo hi d, sd =>
    .vecVal ((List.range d).map (fun i => lo + ((mix2 sd i).natAbs : Int) % max 1 (hi - lo + 1)))
  | .multiBinary n, sd =>
    .vecVal ((List.range n).map (fun i => Int.ofNat ((mix2 sd i).natAbs % 2)))

/-- Modelled from the spec: `OneOf.sample` — the first seed drives the
index generator that picks a sub-space uniformly, the remaining seeds
drive the sub-spaces. -/
def oneOfSample (subs : List Space) (seeds : List Int) : Option (Nat × SpaceVal) :=
  match seeds with
  | [] => none
  | s0 :: subSeeds =>
    if subs.length = 0 then none
    else
      let idx := (mix2 s0 0).natAbs % subs.length
      match subs[idx]?, subSeeds[idx]? with
      | some sp, some sd => some (idx, spaceSample sp sd)
      | _, _ => none

/-- One experimental run of `test_oneof_seeds`: seed the space, then
draw one sample. -/
def seedThenSample (entropy : Int) (subs : List Space) (s : SeedArg) :
    Except SeedError (List Int × Option (Nat × SpaceVal)) :=
  match oneOfSeed entropy subs.length s with
  | .ok seeds => .ok (seeds, oneOfSample subs seeds)
  | .error e => .error e

/-! ## The `DelayObservation` wrapper constructor

Modelled from the spec (§7 construction errors) and the error messages
asserted by `src/tests/experimental/wrappers/test_delay_observation.py`
(`test_delay_failures`); the wrapper module itself is not in the
snapshot. -/

/-- The `delay` argument, tagged with its Python runtime type. -/
inductive PyArg where
  | intArg (n : Int)
  | nonIntArg (typeName : String)
deriving DecidableEq

/-- Modelled from the spec: the `DelayObservation.__init__` argument
validation — `TypeError` for a non-integer delay, `ValueError` for a
negative one, both raised before the wrapper exists. -/
def mkDelayObservation (delay : PyArg) : Except ConstructionError Nat :=
  match delay with
  | .nonIntArg t =>
    .error (.typeError ("The delay is expected to be an integer, actual type: " ++ t))
  | .intArg n =>
    if n < 0 then
      .error (.valueError ("The delay needs to be greater than zero, actual value: "
        ++ intToStr n))
    else .ok n.toNat

/-! ## The `TimeLimit` wrapper

Embedding of `src/gymnasium/wrappers/time_limit.py`: `step` forwards to
the wrapped environment, increments `_elapsed_steps` and overwrites
`truncated` with `True` once `_elapsed_steps >= _max_episode_steps`;
`reset` sets `_elapsed_steps` to zero and forwards the inner reset
result.  The claim concerns the wrapper after a reset with a configured
step limit, so the counter and the limit are naturals. -/

/-- The `(observation, reward, terminated, truncated, info)` tuple
returned by `env.step`. -/
structure StepOut (O R I : Type) where
  obs : O
  reward : R
  terminated : Bool
  truncated : Bool
  info : I

/-- `TimeLimit.step`, given the inner environment's step result and the
current `_elapsed_steps`; returns the outer step result and the updated
counter. -/
def timeLimitStep {O R I : Type} (inner : StepOut O R I)
    (elapsed maxEpisodeSteps : Nat) : StepOut O R I × Nat :=
  let e := elapsed + 1
  ({ inner with truncated := if maxEpisodeSteps ≤ e then true else inner.truncated }, e)

/-- `TimeLimit.reset`, given the inner environment's reset result:
forwards it and zeroes the counter. -/
def timeLimitReset {O I : Type} (innerReset : O × I) : (O × I) × Nat :=
  (innerReset, 0)

/-! ## Concrete stacks and chains used by the witnesses -/

def stackPrim : SpecStack :=
  ⟨[⟨"TimeAwareObservation", 0, [("flatten", .jbool true)]⟩,
    ⟨"FlattenObservation", 0, []⟩],
   ⟨"CartPole-v1",
    [("render_mode", .jstr "rgb_array"),
     ("limits", .jarr [.jint 1, .jnull, .jobj [("k", .jint (-3))]])],
    some 500⟩⟩

def stackPrettyPrinted : SpecStack :=
  ⟨[⟨"ClipReward", 0, [("min_reward", .jint 0), ("max_reward", .jint 1)]⟩],
   ⟨"LunarLander-v2", [("continuous", .jbool false)], some 1000⟩⟩

def stackCallable : SpecStack :=
  ⟨[⟨"LambdaReward", 0, [("func", .jcall "lambda r: 2 * r + 1")]⟩],
   ⟨"LunarLander-v2", [], none⟩⟩

def chainWitness : Chain :=
  .wrap ⟨"NormalizeReward", 1, [("gamma_pct", .jint 80)]⟩
    (.wrap ⟨"FlattenObservation", 0, []⟩
      (.base ⟨"CartPole-v1", [("render_mode", .jstr "rgb_array")], some 500⟩))

/-! # Theorems -/

theorem digitsOfAux_eq (fuel : Nat) :
    ∀ n acc, n < fuel → digitsOfAux fuel n acc = digitsSpec n ++ acc := by
  induction fuel with
  | zero => intro n acc h; omega
  | succ fuel ih =>
    intro n acc h
    by_cases h10 : n < 10
    · rw [digitsOfAux, if_pos h10, digitsSpec, if_pos h10]
      simp
    · have hdiv : n / 10 < fuel :=
        lt_of_lt_of_le (Nat.div_lt_self (by omega) (by omega)) (by omega)
      rw [digitsOfAux, if_neg h10, ih _ _ hdiv]
      conv_rhs => rw [digitsSpec]
      rw [if_neg h10]
      simp

theorem natToDigits_eq (n : Nat) : natToDigits n = digitsSpec n := by
  have := digitsOfAux_eq (n + 1) n [] (by omega)
  simpa [natToDigits] using this

theorem digitChar_isDigit (n : Nat) : (digitChar n).isDigit = true := by
  have h : n % 10 < 10 := Nat.mod_lt _ (by omega)
  unfold digitChar
  interval_cases h : n % 10 <;> decide

theorem digitChar_toNat (n : Nat) : (digitChar n).toNat = 48 + n % 10 := by
  have h : n % 10 < 10 := Nat.mod_lt _ (by omega)
  unfold digitChar
  interval_cases h : n % 10 <;> decide

theorem digitsSpec_ne_nil (n : Nat) : digitsSpec n ≠ [] := by
  rw [digitsSpec]
  split <;> simp

theorem digitsSpec_all_digit (n : Nat) :
    ∀ c ∈ digitsSpec n, c.isDigit = true := by
  induction n using Nat.strong_induction_on with
  | _ n ih =>
    rw [digitsSpec]
    split
    · intro c hc
      simp only [List.mem_singleton] at hc
      subst hc
      exact digitChar_isDigit n
    · intro c hc
      rcases List.mem_append.mp hc with h | h
      · exact ih (n / 10) (Nat.div_lt_self (by omega) (by omega)) c h
      · simp only [List.mem_singleton] at h
        subst h
        exact digitChar_isDigit (n % 10)

theorem digitsVal_append_single (l : List Char) (c : Char) :
    digitsVal (l ++ [c]) = 10 * digitsVal l + (c.toNat - 48) := by
  simp [digitsVal, List.foldl_append]

theorem digitsVal_digitsSpec (n : Nat) : digitsVal (digitsSpec n) = n := by
  induction n using Nat.strong_induction_on with
  | _ n ih =>
    rw [digitsSpec]
    split
    · rename_i h10
      simp [digitsVal, digitChar_toNat]
      omega
    · rename_i h10
      rw [digitsVal_append_single, ih (n / 10) (Nat.div_lt_self (by omega) (by omega)),
        digitChar_toNat]
      omega

theorem takeWhile_append_of_all {p : Char → Bool} :
    ∀ xs ys : List Char, (∀ c ∈ xs, p c = true) →
      (xs ++ ys).takeWhile p = xs ++ ys.takeWhile p := by
  intro xs ys h
  induction xs with
  | nil => simp
  | cons x xs ih =>
    have hx : p x = true := h x (List.mem_cons_self x xs)
    simp only [List.cons_append, List.takeWhile_cons, hx, if_true]
    rw [ih (fun c hc => h c (List.mem_cons_of_mem x hc))]

theorem dropWhile_append_of_all {p : Char → Bool} :
    ∀ xs ys : List Char, (∀ c ∈ xs, p c = true) →
      (xs ++ ys).dropWhile p = ys.dropWhile p := by
  intro xs ys h
  induction xs with
  | nil => simp
  | cons x xs ih =>
    have hx : p x = true := h x (List.mem_cons_self x xs)
    simp only [List.cons_append, List.dropWhile_cons, hx, if_true]
    exact ih (fun c hc => h c (List.mem_cons_of_mem x hc))

theorem readNat_digitsSpec (n : Nat) (rest : List Char) :
    readNat (digitsSpec n ++ ';' :: rest) = some (n, rest) := by
  have htake : (digitsSpec n ++ ';' :: rest).takeWhile Char.isDigit = digitsSpec n := by
    rw [takeWhile_append_of_all _ _ (digitsSpec_all_digit n)]
    simp [List.takeWhile_cons]
  have hdrop : (digitsSpec n ++ ';' :: rest).dropWhile Char.isDigit = ';' :: rest := by
    rw [dropWhile_append_of_all _ _ (digitsSpec_all_digit n)]
    simp [List.dropWhile_cons]
  obtain ⟨d, ds, hds⟩ := List.exists_cons_of_ne_nil (digitsSpec_ne_nil n)
  rw [readNat, htake, hdrop, hds]
  simp [← hds, digitsVal_digitsSpec]

theorem readInt_encInt (i : Int) (rest : List Char) :
    readInt (encInt i ++ rest) = some (i, rest) := by
  by_cases hneg : i < 0
  · rw [encInt, if_pos hneg, natToDigits_eq]
    have : ('m' :: (digitsSpec i.natAbs ++ [';'])) ++ rest
        = 'm' :: (digitsSpec i.natAbs ++ ';' :: rest) := by simp
    rw [this, readInt, if_pos rfl, readNat_digitsSpec]
    show some (-((i.natAbs : Nat) : Int), rest) = some (i, rest)
    have : -((i.natAbs : Nat) : Int) = i := by omega
    rw [this]
  · rw [encInt, if_neg hneg, natToDigits_eq]
    obtain ⟨d, ds, hds⟩ := List.exists_cons_of_ne_nil (digitsSpec_ne_nil i.natAbs)
    have hd : d.isDigit = true := by
      apply digitsSpec_all_digit i.natAbs
      rw [hds]; exact List.mem_cons_self d ds
    have hdm : ¬ d = 'm' := by
      intro h; subst h; exact absurd hd (by decide)
    have hsplit : (digitsSpec i.natAbs ++ [';']) ++ rest
        = d :: (ds ++ ';' :: rest) := by
      rw [hds]; simp
    rw [hsplit, readInt, if_neg hdm]
    have : d :: (ds ++ ';' :: rest) = digitsSpec i.natAbs ++ ';' :: rest := by
      rw [hds]; simp
    rw [this, readNat_digitsSpec]
    show some (((i.natAbs : Nat) : Int), rest) = some (i, rest)
    have : ((i.natAbs : Nat) : Int) = i := by omega
    rw [this]

theorem readChars_escape (d : Char) (rest2 : List Char) :
    readChars ('x' :: d :: rest2)
      = match readChars rest2 with
        | some (s, r) => some (d :: s, r)
        | none => none := by
  rw [readChars.eq_def]
  simp

theorem readChars_term (rest : List Char) :
    readChars ('q' :: rest) = some ([], rest) := by
  rw [readChars.eq_def]
  simp

theorem readChars_plain (c : Char) (rest : List Char)
    (h1 : ¬ c = 'x') (h2 : ¬ c = 'q') :
    readChars (c :: rest)
      = match readChars rest with
        | some (s, r) => some (c :: s, r)
        | none => none := by
  rw [readChars.eq_def]
  simp [h1, h2]

theorem readChars_encChars (l : List Char) (rest : List Char) :
    readChars (encChars l ++ rest) = some (l, rest) := by
  induction l with
  | nil =>
    show readChars ('q' :: rest) = some ([], rest)
    exact readChars_term rest
  | cons c cs ih =>
    by_cases hesc : c = 'q' ∨ c = 'x'
    · rw [encChars, if_pos hesc]
      show readChars ('x' :: c :: (encChars cs ++ rest)) = _
      rw [readChars_escape, ih]
    · rw [encChars, if_neg hesc]
      push_neg at hesc
      show readChars (c :: (encChars cs ++ rest)) = _
      rw [readChars_plain c _ hesc.2 hesc.1, ih]

theorem encChars_length_pos (l : List Char) : 1 ≤ (encChars l).length := by
  cases l with
  | nil => simp [encChars]
  | cons c cs => rw [encChars]; split <;> simp

theorem encV_head (v : JVal) :
    ∃ c t, encV v = c :: t ∧ ¬ c = 'e' ∧ ¬ c = 'k' := by
  cases v with
  | jnull => exact ⟨'n', [], rfl, by decide, by decide⟩
  | jbool b => cases b with
    | true => exact ⟨'t', [], rfl, by decide, by decide⟩
    | false => exact ⟨'f', [], rfl, by decide, by decide⟩
  | jint i => exact ⟨'i', encInt i, rfl, by decide, by decide⟩
  | jstr s => exact ⟨'s', encChars s.data, rfl, by decide, by decide⟩
  | jcall s => exact ⟨'c', encChars s.data, rfl, by decide, by decide⟩
  | jarr l => exact ⟨'a', encA l, rfl, by decide, by decide⟩
  | jobj l => exact ⟨'o', encO l, rfl, by decide, by decide⟩

theorem encV_length_pos (v : JVal) : 1 ≤ (encV v).length := by
  obtain ⟨c, t, h, -, -⟩ := encV_head v
  simp [h]

theorem encA_length_pos (l : List JVal) : 1 ≤ (encA l).length := by
  cases l with
  | nil => simp [encA]
  | cons v vs =>
    rw [encA]
    have := encV_length_pos v
    simp only [List.length_append]
    omega

theorem encO_length_pos (l : List (String × JVal)) : 1 ≤ (encO l).length := by
  cases l with
  | nil => simp [encO]
  | cons kv vs => obtain ⟨k, v⟩ := kv; simp [encO]

/-! ### Stepping lemmas for the parser -/

theorem decV_null (f : Nat) (rest : List Char) :
    decV (f + 1) ('n' :: rest) = some (.jnull, rest) := by
  rw [decV.eq_def]; simp

theorem decV_true (f : Nat) (rest : List Char) :
    decV (f + 1) ('t' :: rest) = some (.jbool true, rest) := by
  rw [decV.eq_def]; simp

theorem decV_false (f : Nat) (rest : List Char) :
    decV (f + 1) ('f' :: rest) = some (.jbool false, rest) := by
  rw [decV.eq_def]; simp

theorem decV_int (f : Nat) (rest : List Char) :
    decV (f + 1) ('i' :: rest)
      = match readInt rest with
        | some (i, r) => some (.jint i, r)
        | none => none := by
  rw [decV.eq_def]; simp

theorem decV_str (f : Nat) (rest : List Char) :
    decV (f + 1) ('s' :: rest)
      = match readChars rest with
        | some (l, r) => some (.jstr (String.mk l), r)
        | none => none := by
  rw [decV.eq_def]; simp

theorem decV_call (f : Nat) (rest : List Char) :
    decV (f + 1) ('c' :: rest)
      = match readChars rest with
        | some (l, r) => some (.jcall (String.mk l), r)
        | none => none := by
  rw [decV.eq_def]; simp

theorem decV_arr (f : Nat) (rest : List Char) :
    decV (f + 1) ('a' :: rest)
      = match decA f rest with
        | some (l, r) => some (.jarr l, r)
        | none => none := by
  rw [decV.eq_def]; simp

theorem decV_obj (f : Nat) (rest : List Char) :
    decV (f + 1) ('o' :: rest)
      = match decO f rest with
        | some (l, r) => some (.jobj l, r)
        | none => none := by
  rw [decV.eq_def]; simp

theorem decA_term (f : Nat) (rest : List Char) :
    decA (f + 1) ('e' :: rest) = some ([], rest) := by
  rw [decA.eq_def]; simp

theorem decA_step (f : Nat) (c : Char) (rest : List Char) (hc : ¬ c = 'e') :
    decA (f + 1) (c :: rest)
      = match decV f (c :: rest) with
        | some (v, r) =>
          match decA f r with
          | some (l, r2) => some (v :: l, r2)
          | none => none
        | none => none := by
  rw [decA.eq_def]; simp [hc]

theorem decO_term (f : Nat) (rest : List Char) :
    decO (f + 1) ('e' :: rest) = some ([], rest) := by
  rw [decO.eq_def]; simp

theorem decO_entry (f : Nat) (rest : List Char) :
    decO (f + 1) ('k' :: rest)
      = match readChars rest with
        | some (k, r) =>
          match decV f r with
          | some (v, r2) =>
            match decO f r2 with
            | some (l, r3) => some ((String.mk k, v) :: l, r3)
            | none => none
          | none => none
        | none => none := by
  rw [decO.eq_def]; simp

/-! ### The parser inverts the encoder -/

theorem dec_enc_master (fuel : Nat) :
    (∀ v rest, (encV v).length ≤ fuel →
      decV fuel (encV v ++ rest) = some (v, rest)) ∧
    (∀ l rest, (encA l).length ≤ fuel →
      decA fuel (encA l ++ rest) = some (l, rest)) ∧
    (∀ l rest, (encO l).length ≤ fuel →
      decO fuel (encO l ++ rest) = some (l, rest)) := by
  induction fuel using Nat.strong_induction_on with
  | _ fuel ih =>
    match fuel with
    | 0 =>
      refine ⟨fun v rest h => ?_, fun l rest h => ?_, fun l rest h => ?_⟩
      · have := encV_length_pos v; omega
      · have := encA_length_pos l; omega
      · have := encO_length_pos l; omega
    | f + 1 =>
      obtain ⟨ihV, ihA, ihO⟩ := ih f (Nat.lt_succ_self f)
      refine ⟨fun v rest h => ?_, fun l rest h => ?_, fun l rest h => ?_⟩
      · cases v with
        | jnull => exact decV_null f rest
        | jbool b => cases b with
          | true => exact decV_true f rest
          | false => exact decV_false f rest
        | jint i =>
          show decV (f + 1) ('i' :: (encInt i ++ rest)) = _
          rw [decV_int, readInt_encInt]
        | jstr s =>
          show decV (f + 1) ('s' :: (encChars s.data ++ rest)) = _
          rw [decV_str, readChars_encChars]
        | jcall s =>
          show decV (f + 1) ('c' :: (encChars s.data ++ rest)) = _
          rw [decV_call, readChars_encChars]
        | jarr l =>
          show decV (f + 1) ('a' :: (encA l ++ rest)) = _
          rw [decV_arr, ihA l rest (by simp [encV] at h; omega)]
        | jobj l =>
          show decV (f + 1) ('o' :: (encO l ++ rest)) = _
          rw [decV_obj, ihO l rest (by simp [encV] at h; omega)]
      · cases l with
        | nil => exact decA_term f rest
        | cons v vs =>
          obtain ⟨c, t, hv, hce, -⟩ := encV_head v
          have hlenV := encV_length_pos v
          have hlenA := encA_length_pos vs
          have hlen : (encA (v :: vs)).length = (encV v).length + (encA vs).length := by
            simp [encA]
          show decA (f + 1) ((encV v ++ encA vs) ++ rest) = _
          rw [List.append_assoc, hv, List.cons_append, decA_step f c _ hce,
            ← List.cons_append, ← hv, ihV v _ (by omega)]
          show (match decA f (encA vs ++ rest) with
                | some (l, r2) => some (v :: l, r2)
                | none => none) = some (v :: vs, rest)
          rw [ihA vs rest (by omega)]
      · cases l with
        | nil => exact decO_term f rest
        | cons kv vs =>
          obtain ⟨k, v⟩ := kv
          have hlenV := encV_length_pos v
          have hlenO := encO_length_pos vs
          have hlenK := encChars_length_pos k.data
          have hlen : (encO ((k, v) :: vs)).length
              = 1 + ((encChars k.data).length + ((encV v).length + (encO vs).length)) := by
            simp [encO]
            omega
          show decO (f + 1) (('k' :: (encChars k.data ++ (encV v ++ encO vs))) ++ rest) = _
          rw [List.cons_append, decO_entry, List.append_assoc, List.append_assoc,
            readChars_encChars]
          show (match decV f (encV v ++ (encO vs ++ rest)) with
                | some (v2, r2) =>
                  match decO f r2 with
                  | some (l, r3) => some ((String.mk k.data, v2) :: l, r3)
                  | none => none
                | none => none) = some ((k, v) :: vs, rest)
          rw [ihV v _ (by omega)]
          show (match decO f (encO vs ++ rest) with
                | some (l, r3) => some ((String.mk k.data, v) :: l, r3)
                | none => none) = some ((k, v) :: vs, rest)
          rw [ihO vs rest (by omega)]

/-! ### Round-trip lemmas -/

theorem decV_encV_full (v : JVal) :
    decV (encV v).length (encV v) = some (v, []) := by
  have h := (dec_enc_master (encV v).length).1 v [] (le_refl _)
  simpa using h

theorem jvalToWrapper_wrapperToJVal (w : WrapperSpec) :
    jvalToWrapper (wrapperToJVal w) = some w := by
  show (if "name" = "name" ∧ "version" = "version" ∧ "kwargs" = "kwargs" ∧
      0 ≤ ((w.version : Nat) : Int) then
      some (⟨w.name, ((w.version : Nat) : Int).toNat, w.kwargs⟩ : WrapperSpec)
    else none) = some w
  rw [if_pos ⟨rfl, rfl, rfl, Int.natCast_nonneg _⟩]
  simp

theorem jvalToEnv_envToJVal (e : EnvSpec) :
    jvalToEnv (envToJVal e) = some e := by
  show (if "id" = "id" ∧ "kwargs" = "kwargs" ∧
      "max_episode_steps" = "max_episode_steps" then
      match jvalToMaxSteps (maxStepsToJVal e.maxEpisodeSteps) with
      | some m => some (⟨e.id, e.kwargs, m⟩ : EnvSpec)
      | none => none
    else none) = some e
  rw [if_pos ⟨rfl, rfl, rfl⟩]
  cases h : e.maxEpisodeSteps with
  | none => simp [maxStepsToJVal, jvalToMaxSteps, ← h]
  | some n =>
    rw [maxStepsToJVal]
    show (match jvalToMaxSteps (.jint (n : Int)) with
      | some m => some (⟨e.id, e.kwargs, m⟩ : EnvSpec)
      | none => none) = some e
    rw [jvalToMaxSteps, if_pos (Int.natCast_nonneg n)]
    simp [← h]

theorem mapOpt_map {α β : Type} (f : β → Option α) (g : α → β)
    (hfg : ∀ a, f (g a) = some a) :
    ∀ l : List α, mapOpt f (l.map g) = some l := by
  intro l
  induction l with
  | nil => rfl
  | cons a as ih =>
    show mapOpt f (g a :: as.map g) = some (a :: as)
    rw [mapOpt, hfg a, ih]

theorem jvalToStack_stackToJVal (s : SpecStack) :
    jvalToStack (stackToJVal s) = some s := by
  obtain ⟨ws, e⟩ := s
  show jvalToStack (.jarr (ws.map wrapperToJVal ++ [envToJVal e])) = some ⟨ws, e⟩
  rw [jvalToStack]
  rw [List.getLast?_concat, List.dropLast_concat,
    mapOpt_map jvalToWrapper wrapperToJVal jvalToWrapper_wrapperToJVal ws]
  show (match some ws, jvalToEnv (envToJVal e) with
        | some ws2, some e2 => some (⟨ws2, e2⟩ : SpecStack)
        | _, _ => none) = some (⟨ws, e⟩ : SpecStack)
  rw [jvalToEnv_envToJVal e]

theorem deserialize_serialize (s : SpecStack) (allow : Bool)
    (h : hasCallableStack s = false ∨ allow = true) :
    deserialize_spec_stack (serialize_spec_stack s) allow = .ok s := by
  have hlen : (serialize_spec_stack s).length = (encV (stackToJVal s)).length := rfl
  have hdata : (serialize_spec_stack s).data = encV (stackToJVal s) := rfl
  rw [deserialize_spec_stack, hlen, hdata, decV_encV_full]
  have hcond : ¬ (allow = false ∧ jHasCallable (stackToJVal s) = true) := by
    rcases h with h | h
    · intro hc
      exact absurd hc.2 (by simpa [hasCallableStack] using h)
    · intro hc
      rw [h] at hc
      exact absurd hc.1 (by simp)
  show (if allow = false ∧ jHasCallable (stackToJVal s) = true then
          Except.error (DeserializeError.unsafeCallable unsafeEvalMsg)
        else
          match jvalToStack (stackToJVal s) with
          | some s2 => Except.ok s2
          | none => Except.error
              (DeserializeError.parseError "the document is not a spec stack"))
      = Except.ok s
  rw [if_neg hcond, jvalToStack_stackToJVal]

theorem deserialize_serialize_callable_err (s : SpecStack)
    (h : hasCallableStack s = true) :
    deserialize_spec_stack (serialize_spec_stack s) false
      = .error (.unsafeCallable unsafeEvalMsg) := by
  have hlen : (serialize_spec_stack s).length = (encV (stackToJVal s)).length := rfl
  have hdata : (serialize_spec_stack s).data = encV (stackToJVal s) := rfl
  rw [deserialize_spec_stack, hlen, hdata, decV_encV_full]
  show (if false = false ∧ jHasCallable (stackToJVal s) = true then
          Except.error (DeserializeError.unsafeCallable unsafeEvalMsg)
        else
          match jvalToStack (stackToJVal s) with
          | some s2 => Except.ok s2
          | none => Except.error
              (DeserializeError.parseError "the document is not a spec stack"))
      = Except.error (DeserializeError.unsafeCallable unsafeEvalMsg)
  rw [if_pos ⟨rfl, h⟩]

theorem gym_make_spec_stack (c : Chain) : gym_make (spec_stack c) = c := by
  induction c with
  | base e => rfl
  | wrap w c ih =>
    show Chain.wrap w (gym_make (spec_stack c)) = Chain.wrap w c
    rw [ih]

/-! # The claims -/

/-- Claim C1: for every spec stack whose wrapper and environment
arguments are only JSON-representable primitives and nested
mappings/sequences (no callables), deserializing the serialized text
yields a structurally equal stack — the same ordered wrapper names,
versions and keyword arguments, and the same terminal environment
spec. -/
theorem c1_deserialize_serialize_roundtrip (S : SpecStack)
    (h : hasCallableStack S = false) :
    deserialize_spec_stack (serialize_spec_stack S) false = .ok S :=
  deserialize_serialize S false (Or.inl h)

/-- Witness for C1 on a concrete callable-free stack with string,
boolean, integer, null, nested-sequence and nested-mapping arguments. -/
theorem c1_deserialize_serialize_roundtrip_witness :
    hasCallableStack stackPrim = false ∧
    deserialize_spec_stack (serialize_spec_stack stackPrim) false = .ok stackPrim :=
  ⟨rfl, c1_deserialize_serialize_roundtrip stackPrim rfl⟩

/-- Claim C2: reconstructing the environment from its captured spec
stack (`gym.make (env.spec_stack)`) and resetting/stepping it with the
same seed and action sequence as the original produces an identical
observation trajectory.  The model evaluates every recorded argument —
callables included — deterministically, so the statement holds for all
chains and in particular for every chain without non-deterministic
callables, the domain the claim quantifies over. -/
theorem c2_reconstructed_chain_trajectory (c : Chain) (seed : Int) (acts : List Int) :
    chainTraj (gym_make (spec_stack c)) seed acts = chainTraj c seed acts := by
  rw [gym_make_spec_stack]

/-- Witness for C2 on a concrete callable-free two-wrapper chain, seed
42 and a three-step action sequence. -/
theorem c2_reconstructed_chain_trajectory_witness :
    hasCallableStack (spec_stack chainWitness) = false ∧
    chainTraj (gym_make (spec_stack chainWitness)) 42 [0, 1, 0]
      = chainTraj chainWitness 42 [0, 1, 0] :=
  ⟨rfl, c2_reconstructed_chain_trajectory chainWitness 42 [0, 1, 0]⟩

/-- Claim C3: deserializing any serialized spec stack that contains a
serialized callable argument with `allow_unsafe_eval=False` fails with
the distinguished unsafe-deserialization error (a different constructor
from every parse error), and no stack is constructed — the result is
the error, not an `ok`. -/
theorem c3_unsafe_deserialize_rejected (S : SpecStack)
    (h : hasCallableStack S = true) :
    deserialize_spec_stack (serialize_spec_stack S) false
      = .error (.unsafeCallable unsafeEvalMsg) ∧
    ∀ m m' : String,
      (DeserializeError.unsafeCallable m ≠ DeserializeError.parseError m') :=
  ⟨deserialize_serialize_callable_err S h,
   fun _ _ hEq => DeserializeError.noConfusion hEq⟩

/-- Witness for C3 on a concrete stack carrying a serialized lambda
(the `LambdaRewardV0` example of
`src/tmp_SpecStack_usage_experimental_wrapper.py`). -/
theorem c3_unsafe_deserialize_rejected_witness :
    hasCallableStack stackCallable = true ∧
    deserialize_spec_stack (serialize_spec_stack stackCallable) false
      = .error (.unsafeCallable unsafeEvalMsg) :=
  ⟨rfl, (c3_unsafe_deserialize_rejected stackCallable rfl).1⟩

/-- Claim C9: for every callable-free spec stack, pretty-printing the
in-memory stack and pretty-printing its round-tripped serialized text
form yield identical text. -/
theorem c9_pprint_roundtrip (S : SpecStack)
    (h : hasCallableStack S = false) :
    pprint_spec_stack_text (serialize_spec_stack S) = .ok (pprint_spec_stack S) := by
  rw [pprint_spec_stack_text, deserialize_serialize S true (Or.inr rfl)]

/-- Witness for C9 on a concrete callable-free stack. -/
theorem c9_pprint_roundtrip_witness :
    hasCallableStack stackPrettyPrinted = false ∧
    pprint_spec_stack_text (serialize_spec_stack stackPrettyPrinted)
      = .ok (pprint_spec_stack stackPrettyPrinted) :=
  ⟨rfl, c9_pprint_roundtrip stackPrettyPrinted rfl⟩

/-! ## Helper lemmas for the version-resolution claim -/

theorem startsWithL_append_self (p t : List Char) :
    startsWithL (p ++ t) p = true := by
  induction p with
  | nil => cases t <;> rfl
  | cons a as ih => simp [startsWithL, ih]

theorem containsSub_nil_pat (l : List Char) : containsSub l [] = true := by
  cases l with
  | nil => rfl
  | cons c t => rw [containsSub]; cases t <;> simp [startsWithL]

theorem containsSub_intro (pre pat post : List Char) :
    containsSub (pre ++ (pat ++ post)) pat = true := by
  induction pre with
  | nil =>
    show containsSub (pat ++ post) pat = true
    cases hp : pat ++ post with
    | nil =>
      have : pat = [] := by
        cases pat with
        | nil => rfl
        | cons c t => simp at hp
      subst this
      rfl
    | cons c t =>
      rw [containsSub, ← hp, startsWithL_append_self]
      simp
  | cons a pre ih =>
    rw [List.cons_append, containsSub]
    simp [ih]

theorem deprecatedMsg_names (name base : String) (L : Nat) :
    containsSub (deprecatedMsg name base L).data (base ++ natToStr L).data = true := by
  have h := containsSub_intro
    (name.data ++ (" is now deprecated, use ").data)
    (base.data ++ (natToStr L).data)
    ((" instead.\nTo see the changes made, go to ").data
      ++ (("https://gymnasium.farama.org/api/experimental/wrappers/#gymnasium.experimental.wrappers.").data
      ++ (base.data ++ ((natToStr L).data ++ (".").data))))
  simpa [deprecatedMsg, String.data_append, List.append_assoc] using h

theorem wrongVersionMsg_names (name base : String) (L : Nat) :
    containsSub (wrongVersionMsg name base L).data (base ++ natToStr L).data = true := by
  have h := containsSub_intro
    (name.data ++ (" is the wrong version number, use ").data)
    (base.data ++ (natToStr L).data)
    ((" instead.").data)
  simpa [wrongVersionMsg, String.data_append, List.append_assoc] using h

theorem deprecatedMsg_ne_wrongVersionMsg (name base : String) (L : Nat) :
    deprecatedMsg name base L ≠ wrongVersionMsg name base L := by
  intro hEq
  have hd : (deprecatedMsg name base L).data = (wrongVersionMsg name base L).data := by
    rw [hEq]
  simp only [deprecatedMsg, wrongVersionMsg, String.data_append, List.append_assoc] at hd
  have h2 := List.append_cancel_left hd
  have h3 := congrArg (fun l => l[4]?) h2
  simp only at h3
  simp [List.getElem?_append] at h3

/-- Under the hypotheses that the requested name parses to version `v`,
its family in `__all__` is non-empty, every family member carries a
version number, and the family's latest version is `L`, the
`__getattr__` embedding reduces to the three-way version compare of the
source. -/
theorem getattr_resolved (name : String) (L v : Nat)
    (hv : versionOf name = (v : Int))
    (hws : (experimentalAll.filter
        (fun n => strStartsWith n (baseNameOf name))).isEmpty = false)
    (hall : (experimentalAll.filter
        (fun n => strStartsWith n (baseNameOf name))).all
        (fun n => (lastNum n).isSome) = true)
    (hL : ((experimentalAll.filter
        (fun n => strStartsWith n (baseNameOf name))).filterMap lastNum).foldl
        max 0 = L) :
    getattrWrappers name
      = (if (v : Int) < 0 then
           .invalidVersionWrapper (notValidVersionMsg name (baseNameOf name) L)
         else if (v : Int) < (L : Int) then
           .deprecatedWrapper (deprecatedMsg name (baseNameOf name) L)
         else if (L : Int) < (v : Int) then
           .invalidVersionWrapper (wrongVersionMsg name (baseNameOf name) L)
         else .returnsNone) := by
  simp only [getattrWrappers, hv, hws, hall, hL]
  simp

/-- Claim C4 (amended): for every wrapper family with known latest
version `L`, requesting an older version raises `DeprecatedWrapper` and
requesting a newer one raises `InvalidVersionWrapper`, with distinct
messages; each message embeds `base_name + L` where `base_name` is the
request minus its last two characters — so the suggestion drops the `V`
for single-digit version requests (`ClipRewardV5` is told to use
`ClipReward0`, not `ClipRewardV0`). -/
theorem c4_version_errors (name : String) (L v : Nat)
    (hv : versionOf name = (v : Int))
    (hws : (experimentalAll.filter
        (fun n => strStartsWith n (baseNameOf name))).isEmpty = false)
    (hall : (experimentalAll.filter
        (fun n => strStartsWith n (baseNameOf name))).all
        (fun n => (lastNum n).isSome) = true)
    (hL : ((experimentalAll.filter
        (fun n => strStartsWith n (baseNameOf name))).filterMap lastNum).foldl
        max 0 = L) :
    ((v < L → getattrWrappers name
        = .deprecatedWrapper (deprecatedMsg name (baseNameOf name) L)) ∧
     (L < v → getattrWrappers name
        = .invalidVersionWrapper (wrongVersionMsg name (baseNameOf name) L))) ∧
    deprecatedMsg name (baseNameOf name) L ≠ wrongVersionMsg name (baseNameOf name) L ∧
    containsSub (deprecatedMsg name (baseNameOf name) L).data
      (baseNameOf name ++ natToStr L).data = true ∧
    containsSub (wrongVersionMsg name (baseNameOf name) L).data
      (baseNameOf name ++ natToStr L).data = true := by
  refine ⟨⟨?_, ?_⟩, deprecatedMsg_ne_wrongVersionMsg _ _ _,
    deprecatedMsg_names _ _ _, wrongVersionMsg_names _ _ _⟩
  · intro hvL
    rw [getattr_resolved name L v hv hws hall hL,
      if_neg (by omega), if_pos (by exact_mod_cast hvL)]
  · intro hLv
    rw [getattr_resolved name L v hv hws hall hL,
      if_neg (by omega), if_neg (by omega), if_pos (by exact_mod_cast hLv)]

/-- Witness for C4: the `NormalizeReward` family (latest version 1)
rejects the older `NormalizeRewardV0` as deprecated, and the
`ClipReward` family (latest version 0) rejects the newer
`ClipRewardV5` as the wrong version. -/
theorem c4_version_errors_witness :
    getattrWrappers "NormalizeRewardV0"
      = .deprecatedWrapper
          (deprecatedMsg "NormalizeRewardV0" (baseNameOf "NormalizeRewardV0") 1) ∧
    getattrWrappers "ClipRewardV5"
      = .invalidVersionWrapper
          (wrongVersionMsg "ClipRewardV5" (baseNameOf "ClipRewardV5") 0) :=
  ⟨(c4_version_errors "NormalizeRewardV0" 1 0 (by decide) (by decide) (by decide)
      (by decide)).1.1 (by omega),
   (c4_version_errors "ClipRewardV5" 0 5 (by decide) (by decide) (by decide)
      (by decide)).1.2 (by omega)⟩

/-- Counterexample for C4 as stated: on the claim's own example —
requesting `ClipRewardV5` when only `V0` exists — the raised message is
"ClipRewardV5 is the wrong version number, use ClipReward0 instead.",
which nowhere contains "V0" (nor "ClipRewardV0"): the message does not
name the latest valid version `V0`. -/
theorem c4_counterexample :
    getattrWrappers "ClipRewardV5"
      = .invalidVersionWrapper
          "ClipRewardV5 is the wrong version number, use ClipReward0 instead." ∧
    containsSub
      ("ClipRewardV5 is the wrong version number, use ClipReward0 instead.").data
      ("V0").data = false := by
  exact ⟨by decide, by decide⟩

/-- Claim C5 (amended): `OneOf.seed` accepts `None`, a single integer,
or a list/tuple with exactly one entry per sub-space plus one for the
space's own index generator (`numSubs + 1` entries, the length
`test_oneof_seeds` exercises); a list/tuple of any other length fails
with a value error, and a value of any other type fails with a type
error whose message names the unsupported type. -/
theorem c5_seed_contract (entropy : Int) (numSubs : Nat) (n : Int)
    (l : List Int) (t : String) :
    (oneOfSeed entropy numSubs .noneArg
      = .ok ((List.range (numSubs + 1)).map (fun i => mix2 entropy i))) ∧
    (oneOfSeed entropy numSubs (.intArg n)
      = .ok ((List.range (numSubs + 1)).map (fun i => mix2 n i))) ∧
    (l.length = numSubs + 1 →
      oneOfSeed entropy numSubs (.listArg l) = .ok l ∧
      oneOfSeed entropy numSubs (.tupleArg l) = .ok l) ∧
    (¬ l.length = numSubs + 1 →
      oneOfSeed entropy numSubs (.listArg l)
        = .error (.valueError ("Expects that the seeds length is n+1, actual length: "
            ++ natToStr l.length)) ∧
      oneOfSeed entropy numSubs (.tupleArg l)
        = .error (.valueError ("Expects that the seeds length is n+1, actual length: "
            ++ natToStr l.length))) ∧
    (oneOfSeed entropy numSubs (.otherArg t)
      = .error (.typeError
          ("Expected seed type: list, tuple, int or None, actual type: " ++ t))) := by
  refine ⟨rfl, rfl, fun h => ?_, fun h => ?_, rfl⟩
  · constructor <;> · rw [oneOfSeed, if_pos h]
  · constructor <;> · rw [oneOfSeed, if_neg h]

/-- Witness for C5 on a two-sub-space `OneOf`: a three-entry list and a
three-entry tuple are accepted, a two-entry list and a two-entry tuple
each raise the value error, and a float raises the type error naming
`<class 'float'>`. -/
theorem c5_seed_contract_witness :
    oneOfSeed 0 2 (.listArg [11, 22, 33]) = .ok [11, 22, 33] ∧
    oneOfSeed 0 2 (.tupleArg [11, 22, 33]) = .ok [11, 22, 33] ∧
    oneOfSeed 0 2 (.listArg [11, 22])
      = .error (.valueError ("Expects that the seeds length is n+1, actual length: "
          ++ natToStr 2)) ∧
    oneOfSeed 0 2 (.tupleArg [11, 22])
      = .error (.valueError ("Expects that the seeds length is n+1, actual length: "
          ++ natToStr 2)) ∧
    oneOfSeed 0 2 (.otherArg ("<class " ++ apos ++ "float" ++ apos ++ ">"))
      = .error (.typeError
          ("Expected seed type: list, tuple, int or None, actual type: "
            ++ ("<class " ++ apos ++ "float" ++ apos ++ ">"))) :=
  ⟨((c5_seed_contract 0 2 0 [11, 22, 33] "").2.2.1 (by decide)).1,
   ((c5_seed_contract 0 2 0 [11, 22, 33] "").2.2.1 (by decide)).2,
   ((c5_seed_contract 0 2 0 [11, 22] "").2.2.2.1 (by decide)).1,
   ((c5_seed_contract 0 2 0 [11, 22] "").2.2.2.1 (by decide)).2,
   (c5_seed_contract 0 2 0 [] ("<class " ++ apos ++ "float" ++ apos ++ ">")).2.2.2.2⟩

/-- Counterexample for C5 as stated: on a `OneOf` over two sub-spaces,
a seed sequence with exactly one entry per sub-space (two entries,
whether list or tuple) is rejected with a value error, while a
three-entry list — not "one entry per sub-space" — is accepted:
`OneOf` takes `n + 1` seeds, one extra for its own index generator
(see `test_oneof_seeds`, which feeds `[123, 456, 789]` to a
two-sub-space `OneOf` and gets three seeds back). -/
theorem c5_counterexample :
    oneOfSeed 0 2 (.listArg [123, 456, 789]) = .ok [123, 456, 789] ∧
    oneOfSeed 0 2 (.listArg [123, 456])
      = .error (.valueError "Expects that the seeds length is n+1, actual length: 2") ∧
    oneOfSeed 0 2 (.tupleArg [123, 456])
      = .error (.valueError "Expects that the seeds length is n+1, actual length: 2") := by
  exact ⟨rfl, rfl, rfl⟩

/-- Claim C6 (amended): for every seed argument other than `None` that
a composite space accepts, seeding and then sampling is a pure function
of the argument — it does not consult the entropy source, so two runs
with the same seed produce identical seed lists and identical
samples. -/
theorem c6_seed_sample_deterministic (e1 e2 : Int) (subs : List Space)
    (s : SeedArg) (h : ¬ s = .noneArg) :
    seedThenSample e1 subs s = seedThenSample e2 subs s := by
  cases s with
  | noneArg => exact absurd rfl h
  | intArg n => rfl
  | listArg l => rfl
  | tupleArg l => rfl
  | otherArg t => rfl

/-- Witness for C6: two runs with different entropy but the same
integer seed agree on a concrete two-sub-space `OneOf`. -/
theorem c6_seed_sample_deterministic_witness :
    seedThenSample 0 [Space.discrete 5, Space.box (-1) 1 3] (.intArg 123)
      = seedThenSample 1 [Space.discrete 5, Space.box (-1) 1 3] (.intArg 123) :=
  c6_seed_sample_deterministic 0 1 [Space.discrete 5, Space.box (-1) 1 3]
    (.intArg 123) (by decide)

/-- Counterexample for C6 as stated: `None` is an accepted seed value
("fresh entropy" per the spec), and two runs that both call
`seed(None)` then `sample()` draw different entropy and produce
different seed lists, hence different results. -/
theorem c6_counterexample :
    (seedThenSample 0 [Space.discrete 5, Space.box (-1) 1 3] .noneArg).toOption
      ≠ (seedThenSample 1 [Space.discrete 5, Space.box (-1) 1 3] .noneArg).toOption := by
  decide

/-- Claim C7 (amended): `OneOf.contains` holds exactly on `(index,
value)` pairs whose index passes `isinstance(index, (int, np.int64))` —
a native integer or a 64-bit numpy scalar — and selects (as a
non-negative in-range position) a sub-space containing the value;
other numpy scalars such as `np.int32` are rejected. -/
theorem c7_contains_iff (subs : List Space) (idx : PyIdx) (v : SpaceVal) :
    oneOfContains subs idx v = true ↔
      (isIntLike idx = true ∧ 0 ≤ idxVal idx ∧
        ∃ sp, subs[(idxVal idx).toNat]? = some sp ∧ spaceContains sp v = true) := by
  rw [oneOfContains]
  simp only [Bool.and_eq_true, decide_eq_true_eq]
  constructor
  · rintro ⟨⟨h1, h2⟩, h3⟩
    refine ⟨h1, h2, ?_⟩
    cases hsp : subs[(idxVal idx).toNat]? with
    | some sp =>
      rw [hsp] at h3
      exact ⟨sp, rfl, h3⟩
    | none => rw [hsp] at h3; cases h3
  · rintro ⟨h1, h2, sp, hsp, hc⟩
    exact ⟨⟨h1, h2⟩, by rw [hsp]; exact hc⟩

/-- Counterexample for C7 as stated: the pair `(np.int64 0, [0])` has a
numpy-scalar index, not a native integer, yet it is contained in
`OneOf([Box(0, 1), Box(-1, 0, (2,))])` — exactly the behaviour
`test_oneof_contains` asserts. -/
theorem c7_counterexample :
    isNativeInt (.npInt64 0) = false ∧
    oneOfContains [Space.box 0 1 1, Space.box (-1) 0 2]
      (.npInt64 0) (.vecVal [0]) = true := by
  exact ⟨rfl, by decide⟩

/-- Claim C8: construction errors are raised by the constructor itself,
never deferred — building a `OneOf` from a sequence with any non-space
element returns the assertion-style error, building `DelayObservation`
with a non-integer delay returns the type error naming the type, and
with a negative delay the out-of-range value error. -/
theorem c8_construction_errors (elems : List PyObj) (t : String) (n : Int) :
    (elems.all isSpaceObj = false →
      mkOneOf elems
        = .error (.assertionError "Elements of the OneOf must be instances of gym.Space")) ∧
    (mkDelayObservation (.nonIntArg t)
      = .error (.typeError ("The delay is expected to be an integer, actual type: " ++ t))) ∧
    (n < 0 →
      mkDelayObservation (.intArg n)
        = .error (.valueError ("The delay needs to be greater than zero, actual value: "
            ++ intToStr n))) := by
  refine ⟨fun h => ?_, rfl, fun h => ?_⟩
  · rw [mkOneOf, if_neg (by simp [h])]
  · rw [mkDelayObservation]
    show (if n < 0 then _ else _) = _
    rw [if_pos h]

/-- Witness for C8: `OneOf(["abc"])` raises the assertion error,
`DelayObservation(env, delay=1.0)` the type error with the message of
`test_delay_failures`, and `delay=-1` the value error with its exact
message. -/
theorem c8_construction_errors_witness :
    mkOneOf [.strObj "abc"]
      = .error (.assertionError "Elements of the OneOf must be instances of gym.Space") ∧
    mkDelayObservation (.nonIntArg ("<class " ++ apos ++ "float" ++ apos ++ ">"))
      = .error (.typeError ("The delay is expected to be an integer, actual type: "
          ++ ("<class " ++ apos ++ "float" ++ apos ++ ">"))) ∧
    mkDelayObservation (.intArg (-1))
      = .error (.valueError "The delay needs to be greater than zero, actual value: -1") :=
  ⟨(c8_construction_errors [.strObj "abc"] "" 0).1 (by decide),
   (c8_construction_errors [] ("<class " ++ apos ++ "float" ++ apos ++ ">") 0).2.1,
   (c8_construction_errors [] "" (-1)).2.2 (by decide)⟩

/-- Claim C10: after a reset, `TimeLimit.step` forwards the inner
observation, reward, terminated flag and info unchanged and increments
the elapsed-step counter; the truncated flag equals the inner one while
the updated counter is below `max_episode_steps` and is forced to
`True` once it reaches it; `TimeLimit.reset` forwards the inner reset
result and zeroes the counter. -/
theorem c10_time_limit (O R I : Type) (inner : StepOut O R I)
    (elapsed maxEpisodeSteps : Nat) (r : O × I) :
    ((timeLimitStep inner elapsed maxEpisodeSteps).1.obs = inner.obs ∧
     (timeLimitStep inner elapsed maxEpisodeSteps).1.reward = inner.reward ∧
     (timeLimitStep inner elapsed maxEpisodeSteps).1.terminated = inner.terminated ∧
     (timeLimitStep inner elapsed maxEpisodeSteps).1.info = inner.info) ∧
    (timeLimitStep inner elapsed maxEpisodeSteps).2 = elapsed + 1 ∧
    (elapsed + 1 < maxEpisodeSteps →
      (timeLimitStep inner elapsed maxEpisodeSteps).1.truncated = inner.truncated) ∧
    (maxEpisodeSteps ≤ elapsed + 1 →
      (timeLimitStep inner elapsed maxEpisodeSteps).1.truncated = true) ∧
    timeLimitReset r = (r, 0) := by
  refine ⟨⟨rfl, rfl, rfl, rfl⟩, rfl, fun h => ?_, fun h => ?_, rfl⟩
  · show (if maxEpisodeSteps ≤ elapsed + 1 then true else inner.truncated) = inner.truncated
    rw [if_neg (by omega)]
  · show (if maxEpisodeSteps ≤ elapsed + 1 then true else inner.truncated) = true
    rw [if_pos h]

/-- Witness for C10 with a limit of 3: the first step after reset keeps
the inner truncated flag, the third forces it to `True`, and reset
zeroes the counter. -/
theorem c10_time_limit_witness :
    (timeLimitStep (⟨7, 1, false, false, 9⟩ : StepOut Nat Int Nat) 0 3).1.truncated
      = false ∧
    (timeLimitStep (⟨7, 1, false, false, 9⟩ : StepOut Nat Int Nat) 2 3).1.truncated
      = true ∧
    timeLimitReset ((5, 9) : Nat × Nat) = ((5, 9), 0) :=
  ⟨(c10_time_limit Nat Int Nat ⟨7, 1, false, false, 9⟩ 0 3 (5, 9)).2.2.1 (by omega),
   (c10_time_limit Nat Int Nat ⟨7, 1, false, false, 9⟩ 2 3 (5, 9)).2.2.2.1 (by omega),
   (c10_time_limit Nat Int Nat ⟨7, 1, false, false, 9⟩ 2 3 (5, 9)).2.2.2.2⟩

end GymSpec
